import Mathlib

/-!
Verification of the gurume repository's area-canonicalization module
(`src/tabelog/area_mapping.py`) and the MCP tool boundary handlers
(`src/gurume/server.py`), shallowly embedded in Lean 4.

Strings are embedded as `List Char`; Python dicts with string keys are
embedded as association lists with distinct keys (lookup = first match).
-/

namespace Gurume

/-- Convert a Lean string literal to the `List Char` representation used
throughout this development. -/
def str (s : String) : List Char := s.data

/-- Embedding of `PREFECTURE_MAPPING` from `src/tabelog/area_mapping.py`:
full prefecture name → URL slug, in the source's insertion order. -/
def PREFECTURE_MAPPING : List (List Char × List Char) :=
  [ (str "北海道", str "hokkaido")
  , (str "青森県", str "aomori")
  , (str "岩手県", str "iwate")
  , (str "宮城県", str "miyagi")
  , (str "秋田県", str "akita")
  , (str "山形県", str "yamagata")
  , (str "福島県", str "fukushima")
  , (str "茨城県", str "ibaraki")
  , (str "栃木県", str "tochigi")
  , (str "群馬県", str "gunma")
  , (str "埼玉県", str "saitama")
  , (str "千葉県", str "chiba")
  , (str "東京都", str "tokyo")
  , (str "神奈川県", str "kanagawa")
  , (str "新潟県", str "niigata")
  , (str "富山県", str "toyama")
  , (str "石川県", str "ishikawa")
  , (str "福井県", str "fukui")
  , (str "山梨県", str "yamanashi")
  , (str "長野県", str "nagano")
  , (str "岐阜県", str "gifu")
  , (str "静岡県", str "shizuoka")
  , (str "愛知県", str "aichi")
  , (str "三重県", str "mie")
  , (str "滋賀県", str "shiga")
  , (str "京都府", str "kyoto")
  , (str "大阪府", str "osaka")
  , (str "兵庫県", str "hyogo")
  , (str "奈良県", str "nara")
  , (str "和歌山県", str "wakayama")
  , (str "鳥取県", str "tottori")
  , (str "島根県", str "shimane")
  , (str "岡山県", str "okayama")
  , (str "広島県", str "hiroshima")
  , (str "山口県", str "yamaguchi")
  , (str "徳島県", str "tokushima")
  , (str "香川県", str "kagawa")
  , (str "愛媛県", str "ehime")
  , (str "高知県", str "kochi")
  , (str "福岡県", str "fukuoka")
  , (str "佐賀県", str "saga")
  , (str "長崎県", str "nagasaki")
  , (str "熊本県", str "kumamoto")
  , (str "大分県", str "oita")
  , (str "宮崎県", str "miyazaki")
  , (str "鹿児島県", str "kagoshima")
  , (str "沖縄県", str "okinawa")
  ]

/-- Embedding of `CITY_MAPPING` from `src/tabelog/area_mapping.py`:
short city/region name (without 都/府/県 suffix) → URL slug. -/
def CITY_MAPPING : List (List Char × List Char) :=
  [ (str "東京", str "tokyo")
  , (str "大阪", str "osaka")
  , (str "京都", str "kyoto")
  , (str "北海道", str "hokkaido")
  , (str "福岡", str "fukuoka")
  ]

/-- Association-list lookup: first pair whose key equals `k`.  Models the
combination of Python's `k in d` membership test and `d[k]` indexing on a
dict with distinct keys. -/
def tblLookup (tbl : List (List Char × List Char)) (k : List Char) :
    Option (List Char) :=
  match tbl with
  | [] => none
  | (k', v) :: rest => if k = k' then some v else tblLookup rest k

/-- The fixed suffix list `["都", "府", "県", "市"]` tried by
`get_area_slug`, in source order. -/
def SUFFIX_LIST : List (List Char) :=
  [str "都", str "府", str "県", str "市"]

/-- The suffix-stripping loop of `get_area_slug`
(`for suffix in ["都", "府", "県", "市"]: ...`): for each suffix in order,
if the input ends with it, strip it once and look the stripped value up
in `PREFECTURE_MAPPING` then `CITY_MAPPING`; on a miss continue with the
next suffix. -/
def stripRetry : List (List Char) → List Char → Option (List Char)
  | [], _ => none
  | suf :: rest, s =>
    if suf.isSuffixOf s then
      match tblLookup PREFECTURE_MAPPING (s.take (s.length - suf.length)) with
      | some v => some v
      | none =>
        match tblLookup CITY_MAPPING (s.take (s.length - suf.length)) with
        | some v => some v
        | none => stripRetry rest s
    else stripRetry rest s

/-- Embedding of `get_area_slug` from `src/tabelog/area_mapping.py`:
exact lookup in `PREFECTURE_MAPPING`, then in `CITY_MAPPING`, then the
single-pass suffix-stripping loop; `none` if nothing matches. -/
def get_area_slug (s : List Char) : Option (List Char) :=
  match tblLookup PREFECTURE_MAPPING s with
  | some v => some v
  | none =>
    match tblLookup CITY_MAPPING s with
    | some v => some v
    | none => stripRetry SUFFIX_LIST s

/-- Steps (1)-(2) of the spec's resolution algorithm: exact match against
the full-name table, then against the short-name alias table. -/
def lookup12 (s : List Char) : Option (List Char) :=
  match tblLookup PREFECTURE_MAPPING s with
  | some v => some v
  | none => tblLookup CITY_MAPPING s

/-- Step (3) of the spec's resolution algorithm, written from the spec's
words: for each suffix in the fixed ordered list, if the input ends with
that suffix, strip it and retry steps (1)-(2) on the stripped value; the
first hit wins. -/
def suffixPass : List (List Char) → List Char → Option (List Char)
  | [], _ => none
  | suf :: rest, s =>
    if suf.isSuffixOf s then
      match lookup12 (s.take (s.length - suf.length)) with
      | some v => some v
      | none => suffixPass rest s
    else suffixPass rest s

/-- The spec's description of the area resolution algorithm, written from
the spec's words: steps (1)-(2), then the suffix pass, else absent. -/
def area_slug_spec (s : List Char) : Option (List Char) :=
  match lookup12 s with
  | some v => some v
  | none => suffixPass SUFFIX_LIST s

/-- A slug is a lowercase-ASCII string: every character is in a..z. -/
def isLowerAsciiSlug (s : List Char) : Bool :=
  s.all fun c => 'a' ≤ c && c ≤ 'z'

/-- A table key is nonempty and neither starts nor ends with whitespace. -/
def keyShape (k : List Char) : Bool :=
  match k.head?, k.getLast? with
  | some a, some b => !a.isWhitespace && !b.isWhitespace
  | _, _ => false

lemma allKeysShape :
    ((PREFECTURE_MAPPING ++ CITY_MAPPING).all fun kv => keyShape kv.1) = true := by
  decide

lemma tblLookup_mem_keys {tbl : List (List Char × List Char)} {s v : List Char}
    (h : tblLookup tbl s = some v) : s ∈ tbl.map Prod.fst := by
  induction tbl with
  | nil => simp [tblLookup] at h
  | cons kv rest ih =>
    obtain ⟨k', v'⟩ := kv
    by_cases hk : s = k'
    · simp [hk]
    · simp only [tblLookup, if_neg hk] at h
      simp [ih h]

/-- Any string that a table lookup can hit has the key shape: nonempty,
no whitespace at either end. -/
lemma keyShape_of_lookup {tbl : List (List Char × List Char)} {s v : List Char}
    (htbl : tbl = PREFECTURE_MAPPING ∨ tbl = CITY_MAPPING)
    (h : tblLookup tbl s = some v) : keyShape s = true := by
  have hmem : s ∈ tbl.map Prod.fst := tblLookup_mem_keys h
  have hall := allKeysShape
  rw [List.all_eq_true] at hall
  rw [List.mem_map] at hmem
  obtain ⟨kv, hkv, hfst⟩ := hmem
  have : kv ∈ PREFECTURE_MAPPING ++ CITY_MAPPING := by
    rcases htbl with h1 | h1 <;> rw [h1] at hkv <;> simp [hkv]
  have := hall kv this
  rwa [hfst] at this

lemma lookup12_none_of_bad_shape {s : List Char} (h : keyShape s = false) :
    lookup12 s = none := by
  unfold lookup12
  cases hp : tblLookup PREFECTURE_MAPPING s with
  | some v => rw [keyShape_of_lookup (Or.inl rfl) hp] at h; cases h
  | none =>
    cases hc : tblLookup CITY_MAPPING s with
    | some v => rw [keyShape_of_lookup (Or.inr rfl) hc] at h; cases h
    | none => rfl

lemma match12 (b : List Char) (k : Option (List Char)) :
    (match tblLookup PREFECTURE_MAPPING b with
     | some v => some v
     | none =>
       match tblLookup CITY_MAPPING b with
       | some v => some v
       | none => k) =
    (match lookup12 b with
     | some v => some v
     | none => k) := by
  unfold lookup12
  cases tblLookup PREFECTURE_MAPPING b
  · cases tblLookup CITY_MAPPING b <;> rfl
  · rfl

lemma stripRetry_cons_eq (suf : List Char) (rest : List (List Char))
    (s : List Char) :
    stripRetry (suf :: rest) s =
      if suf.isSuffixOf s then
        match lookup12 (s.take (s.length - suf.length)) with
        | some v => some v
        | none => stripRetry rest s
      else stripRetry rest s := by
  simp only [stripRetry]
  rw [match12]

lemma suffixPass_cons_eq (suf : List Char) (rest : List (List Char))
    (s : List Char) :
    suffixPass (suf :: rest) s =
      if suf.isSuffixOf s then
        match lookup12 (s.take (s.length - suf.length)) with
        | some v => some v
        | none => suffixPass rest s
      else suffixPass rest s := by
  simp only [suffixPass]

lemma stripRetry_eq_suffixPass (L : List (List Char)) (s : List Char) :
    stripRetry L s = suffixPass L s := by
  induction L with
  | nil => rfl
  | cons suf rest ih =>
    rw [stripRetry_cons_eq, suffixPass_cons_eq, ih]

lemma stripRetry_none {L : List (List Char)} {s : List Char}
    (h : ∀ suf ∈ L, suf.isSuffixOf s = true →
      lookup12 (s.take (s.length - suf.length)) = none) :
    stripRetry L s = none := by
  induction L with
  | nil => rfl
  | cons suf rest ih =>
    rw [stripRetry_cons_eq]
    have hrest : stripRetry rest s = none :=
      ih fun t ht => h t (List.mem_cons_of_mem _ ht)
    by_cases hsuf : suf.isSuffixOf s = true
    · rw [if_pos hsuf, h suf (List.mem_cons_self _ _) hsuf, hrest]
    · rw [if_neg hsuf, hrest]

/-- `get_area_slug` expressed through `lookup12` and `stripRetry`. -/
lemma get_area_slug_eq (s : List Char) :
    get_area_slug s =
      match lookup12 s with
      | some v => some v
      | none => stripRetry SUFFIX_LIST s := by
  unfold get_area_slug lookup12
  cases tblLookup PREFECTURE_MAPPING s
  · cases tblLookup CITY_MAPPING s <;> rfl
  · rfl

/-- Claim C1: `get_area_slug` follows exactly the three-step resolution
algorithm of the spec (exact full-name lookup, exact city-alias lookup,
single-pass ordered suffix strip with steps (1)-(2) retried on the
stripped value; first hit wins, else absent), and every entry of the
prefecture full-name table resolves to its own slug. -/
theorem claim_C1 :
    (∀ s, get_area_slug s = area_slug_spec s) ∧
      ((PREFECTURE_MAPPING.all fun kv => get_area_slug kv.1 == some kv.2)
        = true) := by
  constructor
  · intro s
    rw [get_area_slug_eq]
    unfold area_slug_spec
    cases lookup12 s
    · exact stripRetry_eq_suffixPass _ _
    · rfl
  · decide

/-- Claim C2: every slug value of both tables is lowercase ASCII, the
prefecture table's slugs are pairwise distinct (no two distinct keys map
to the same slug), and every city-table slug also occurs among the
prefecture-table slugs. -/
theorem claim_C2 :
    ((PREFECTURE_MAPPING.map Prod.snd).all isLowerAsciiSlug = true) ∧
      ((CITY_MAPPING.map Prod.snd).all isLowerAsciiSlug = true) ∧
      (PREFECTURE_MAPPING.map Prod.snd).Nodup ∧
      (((CITY_MAPPING.map Prod.snd).all fun v =>
          (PREFECTURE_MAPPING.map Prod.snd).contains v) = true) :=
  ⟨by decide, by decide, by decide, by decide⟩

lemma keyShape_false_of_head_ws {t : List Char} {c : Char}
    (h : t.head? = some c) (hc : c.isWhitespace = true) : keyShape t = false := by
  unfold keyShape
  rw [h]
  cases t.getLast? <;> simp [hc]

lemma keyShape_false_of_last_ws {t : List Char} {c : Char}
    (h : t.getLast? = some c) (hc : c.isWhitespace = true) : keyShape t = false := by
  unfold keyShape
  rw [h]
  cases t.head? <;> simp [hc]

lemma head?_take {t : List Char} {n : Nat} (hn : 0 < n) :
    (t.take n).head? = t.head? := by
  cases t with
  | nil => simp
  | cons a rest =>
    cases n with
    | zero => exact absurd hn (by simp)
    | succ m => simp

/-- Claim C3: `get_area_slug` never trims or normalizes: the empty string
and an unknown token resolve to `none`, and any resolving name becomes
unresolvable once whitespace padding is added on either side (matching is
byte-for-byte). -/
theorem claim_C3 :
    get_area_slug [] = none ∧
      get_area_slug (str "unknown-token") = none ∧
      ∀ s l r, get_area_slug s ≠ none →
        (∀ c ∈ l, c.isWhitespace = true) →
        (∀ c ∈ r, c.isWhitespace = true) →
        l ++ r ≠ [] →
        get_area_slug (l ++ s ++ r) = none := by
  refine ⟨by decide, by decide, ?_⟩
  intro s l r hres hl hr hne
  have hs : s ≠ [] := by
    rintro rfl
    exact hres (by decide)
  rw [get_area_slug_eq]
  by_cases hrnil : r = []
  · -- only leading whitespace: the padded string starts with whitespace
    subst hrnil
    have hlnil : l ≠ [] := by simpa using hne
    obtain ⟨c, l', rfl⟩ := List.exists_cons_of_ne_nil hlnil
    have hcw : c.isWhitespace = true := hl c (List.mem_cons_self _ _)
    have hhead : (c :: l' ++ s ++ ([] : List Char)).head? = some c := by simp
    have h12 : lookup12 (c :: l' ++ s ++ ([] : List Char)) = none :=
      lookup12_none_of_bad_shape (keyShape_false_of_head_ws hhead hcw)
    rw [h12]
    apply stripRetry_none
    intro suf hsuf hend
    have hlen1 : suf.length = 1 := by fin_cases hsuf <;> rfl
    set t := c :: l' ++ s ++ ([] : List Char) with ht
    have hlen2 : 2 ≤ t.length := by
      have : 1 ≤ s.length := List.length_pos.mpr hs
      simp [ht]
      omega
    have hpos : 0 < t.length - suf.length := by omega
    have hbase : (t.take (t.length - suf.length)).head? = some c := by
      rw [head?_take hpos]
      exact hhead
    exact lookup12_none_of_bad_shape (keyShape_false_of_head_ws hbase hcw)
  · -- trailing whitespace present: the padded string ends with whitespace
    obtain ⟨c, hc⟩ : ∃ c, r.getLast? = some c := by
      cases hg : r.getLast? with
      | none => exact absurd (List.getLast?_eq_none_iff.mp hg) hrnil
      | some c => exact ⟨c, rfl⟩
    have hcw : c.isWhitespace = true :=
      hr c (List.mem_of_getLast?_eq_some hc)
    have hlast : (l ++ s ++ r).getLast? = some c := by
      rw [List.getLast?_append, hc]
      rfl
    have h12 : lookup12 (l ++ s ++ r) = none :=
      lookup12_none_of_bad_shape (keyShape_false_of_last_ws hlast hcw)
    rw [h12]
    apply stripRetry_none
    intro suf hsuf hend
    rw [List.isSuffixOf_iff_suffix] at hend
    obtain ⟨p, hp⟩ := hend
    exfalso
    obtain ⟨a, ha, haw⟩ : ∃ a, suf.getLast? = some a ∧ a.isWhitespace = false := by
      fin_cases hsuf <;> exact ⟨_, rfl, by decide⟩
    rw [← hp, List.getLast?_append, ha] at hlast
    have hac : a = c := by simpa using hlast
    subst hac
    rw [hcw] at haw
    exact Bool.noConfusion haw

theorem claim_C3_witness :
    get_area_slug ([' '] ++ str "東京" ++ []) = none :=
  claim_C3.2.2 (str "東京") [' '] []
    (by decide) (by decide) (by decide) (by decide)

lemma stripRetry_hits {L : List (List Char)} {b : List Char} {a : Char}
    {v : List Char}
    (hsing : ∀ suf ∈ L, ∃ x, suf = [x])
    (hmem : [a] ∈ L)
    (hfound : lookup12 b = some v) :
    stripRetry L (b ++ [a]) = some v := by
  induction L with
  | nil => cases hmem
  | cons suf rest ih =>
    rw [stripRetry_cons_eq]
    obtain ⟨x, rfl⟩ := hsing suf (List.mem_cons_self _ _)
    by_cases hxa : x = a
    · subst hxa
      have hend : [x].isSuffixOf (b ++ [x]) = true := by
        rw [List.isSuffixOf_iff_suffix]
        exact List.suffix_append _ _
      rw [if_pos hend]
      have hlen : (b ++ [x]).length - [x].length = b.length := by simp
      rw [hlen, List.take_left, hfound]
    · have hend : ¬ ([x].isSuffixOf (b ++ [a]) = true) := by
        intro h
        rw [List.isSuffixOf_iff_suffix] at h
        obtain ⟨p, hp⟩ := h
        have h1 : (p ++ [x]).getLast? = some x := List.getLast?_concat _
        have h2 : (b ++ [a]).getLast? = some a := List.getLast?_concat _
        rw [hp, h2] at h1
        exact hxa (Option.some.inj h1).symm
      rw [if_neg hend]
      have hmem' : [a] ∈ rest := by
        rcases List.mem_cons.mp hmem with h | h
        · exact absurd (List.cons.inj h).1.symm hxa
        · exact h
      exact ih (fun t ht => hsing t (List.mem_cons_of_mem _ ht)) hmem'

/-- Claim C4: suffix stripping is single-pass and can reveal an entry
stored inclusive of a different suffix: when the input matches neither
table exactly, ends with a listed suffix, and the remainder after
stripping that one suffix is a table key, `get_area_slug` returns that
entry's slug (prefecture table first); exactly one suffix is removed. -/
theorem claim_C4 :
    ∀ b suf v, suf ∈ SUFFIX_LIST →
      tblLookup PREFECTURE_MAPPING (b ++ suf) = none →
      tblLookup CITY_MAPPING (b ++ suf) = none →
      lookup12 b = some v →
      get_area_slug (b ++ suf) = some v := by
  intro b suf v hsuf hp hc hfound
  rw [get_area_slug_eq]
  have h12 : lookup12 (b ++ suf) = none := by
    unfold lookup12
    rw [hp]
    exact hc
  rw [h12]
  obtain ⟨a, rfl⟩ : ∃ a, suf = [a] := by fin_cases hsuf <;> exact ⟨_, rfl⟩
  exact stripRetry_hits
    (fun t ht => by fin_cases ht <;> exact ⟨_, rfl⟩) hsuf hfound

theorem claim_C4_witness :
    get_area_slug (str "東京都" ++ str "府") = some (str "tokyo") :=
  claim_C4 (str "東京都") (str "府") (str "tokyo")
    (by decide) (by decide) (by decide) (by decide)

/-! ## MCP server boundary (`src/gurume/server.py`) -/

/-- Sort modes of the search request.  The enum `SortType` lives in
`restaurant.py`, which is not part of the sources here; its four members
are named exactly as the handler in `src/gurume/server.py` uses them. -/
inductive SortType where
  | RANKING
  | REVIEW_COUNT
  | NEW_OPEN
  | STANDARD
deriving DecidableEq

/-- ASCII lowercasing of a string, character by character: the embedding
of Python's `str.lower()` as the handler applies it to the ASCII sort
token. -/
def pyLower (s : List Char) : List Char := s.map Char.toLower

/-- Embedding of the handler's `sort_map.get(·, SortType.RANKING)`:
the four recognized tokens map to their sort mode, anything else to the
default `RANKING`. -/
def sortMapGet (t : List Char) : SortType :=
  if t = str "ranking" then SortType.RANKING
  else if t = str "review-count" then SortType.REVIEW_COUNT
  else if t = str "new-open" then SortType.NEW_OPEN
  else if t = str "standard" then SortType.STANDARD
  else SortType.RANKING

/-- Embedding of `sort_type = sort_map.get(sort.lower(), SortType.RANKING)`
from `_search_restaurants`. -/
def resolveSortType (sort : List Char) : SortType :=
  sortMapGet (pyLower sort)

/-- The four recognized sort tokens. -/
def RECOGNIZED_SORTS : List (List Char) :=
  [str "ranking", str "review-count", str "new-open", str "standard"]

/-- Modelled from the spec: the cuisine-name → genre-code table of
`genre_mapping.py`, which is not among the sources here.  Per the spec the
cuisine canonicalizer is an exact-match-only mapping to a fixed-format
category code, absent on a miss; representative entries are the ones the
server's own tool description documents (すき焼き → RC0107,
焼肉 → RC0103). -/
def GENRE_MAPPING : List (List Char × List Char) :=
  [ (str "すき焼き", str "RC0107")
  , (str "焼肉", str "RC0103")
  ]

/-- Modelled from the spec: `get_genre_code` of `genre_mapping.py` —
exact match only, no suffix stripping, absent on a miss. -/
def get_genre_code (name : List Char) : Option (List Char) :=
  tblLookup GENRE_MAPPING name

/-- A restaurant record of the search response, with the eight fields
`_search_restaurants` copies into its JSON output. -/
structure Restaurant where
  name : List Char
  rating : Option ℚ
  review_count : Option Nat
  area : List Char
  genres : List (List Char)
  url : List Char
  lunch_price : Option (List Char)
  dinner_price : Option (List Char)
deriving DecidableEq

/-- One element of the JSON array `_search_restaurants` returns: the
dict built from a `Restaurant` record, same eight fields. -/
structure RestaurantOut where
  name : List Char
  rating : Option ℚ
  review_count : Option Nat
  area : List Char
  genres : List (List Char)
  url : List Char
  lunch_price : Option (List Char)
  dinner_price : Option (List Char)
deriving DecidableEq

/-- The dict-building step of the handler's result loop: copies each of
the eight fields verbatim. -/
def toOut (r : Restaurant) : RestaurantOut :=
  ⟨r.name, r.rating, r.review_count, r.area, r.genres, r.url,
    r.lunch_price, r.dinner_price⟩

/-- The `SearchRequest` the handler constructs (`search.py` dataclass):
already-resolved identifiers plus the fixed `max_pages=1`. -/
structure SearchRequest where
  area : Option (List Char)
  keyword : Option (List Char)
  genre_code : Option (List Char)
  sort_type : SortType
  max_pages : Nat
deriving DecidableEq

/-- The arguments dict of a `search_restaurants` tool call: each field is
`none` when the key is absent (`arguments.get`). -/
structure SearchArgs where
  area : Option (List Char) := none
  keyword : Option (List Char) := none
  cuisine : Option (List Char) := none
  sort : Option (List Char) := none
  limit : Option Int := none

/-- Python list slicing `lst[:n]` for an arbitrary integer bound: a
non-negative bound takes the first `n` elements (clamped at the length),
a negative bound drops `-n` elements from the end (clamped at zero). -/
def pySliceTo {α : Type} (n : Int) (l : List α) : List α :=
  if 0 ≤ n then l.take n.toNat else l.take (l.length - (-n).toNat)

/-- Embedding of `_search_restaurants` from `src/gurume/server.py`.
The coroutine's remote call `request.search()` is abstracted by passing
the response's aggregated restaurant list `fetched` as an argument; the
function returns the `SearchRequest` the handler builds together with
the JSON record list it produces.  Mirrored line by line: defaults
`sort="ranking"` and `limit=20`, `sort_map.get(sort.lower(), RANKING)`,
`genre_code = get_genre_code(cuisine) if cuisine else None` (Python
truthiness: `None` and `""` both skip the lookup), truncation by
`response.restaurants[:limit]`.  No argument validation occurs anywhere
in this handler. -/
def searchRestaurants (args : SearchArgs) (fetched : List Restaurant) :
    SearchRequest × List RestaurantOut :=
  let sort := args.sort.getD (str "ranking")
  let limit := args.limit.getD 20
  let sort_type := resolveSortType sort
  let genre_code :=
    match args.cuisine with
    | none => none
    | some c => if c = [] then none else get_genre_code c
  let request : SearchRequest :=
    ⟨args.area, args.keyword, genre_code, sort_type, 1⟩
  (request, (pySliceTo limit fetched).map toOut)

/-- One autocomplete suggestion (`suggest.py` dataclasses), with the five
fields the suggestion handlers copy into their JSON output. -/
structure Suggestion where
  name : List Char
  datatype : List Char
  id_in_datatype : Nat
  lat : Option ℚ
  lng : Option ℚ
deriving DecidableEq

/-- Python `str.strip()`: remove leading and trailing whitespace. -/
def pyStrip (s : List Char) : List Char :=
  ((s.dropWhile Char.isWhitespace).reverse.dropWhile Char.isWhitespace).reverse

/-- Modelled from the spec: `get_area_suggestions_async` /
`get_keyword_suggestions_async` of `suggest.py`, which is not among the
sources here.  Per the spec the query is trimmed of surrounding
whitespace before use and an empty post-trim query short-circuits to an
empty sequence without any network call; otherwise the remote response
(abstracted here as the `remote` argument) is returned. -/
def suggestFetch (query : List Char) (remote : List Suggestion) :
    List Suggestion :=
  if pyStrip query = [] then [] else remote

/-- The dict-building step of the suggestion handlers: copies the five
fields verbatim. -/
def suggestionToOut (s : Suggestion) : Suggestion :=
  ⟨s.name, s.datatype, s.id_in_datatype, s.lat, s.lng⟩

/-- Embedding of `_get_area_suggestions` from `src/gurume/server.py`:
`query = arguments.get("query", "")`, the suggestion fetch, then the
record list.  No validation of the query occurs in this handler. -/
def getAreaSuggestions (queryArg : Option (List Char))
    (remote : List Suggestion) : List Suggestion :=
  let query := queryArg.getD []
  (suggestFetch query remote).map suggestionToOut

/-- Embedding of `_get_keyword_suggestions` from `src/gurume/server.py`:
identical body to the area handler, against the keyword suggestion
endpoint. -/
def getKeywordSuggestions (queryArg : Option (List Char))
    (remote : List Suggestion) : List Suggestion :=
  let query := queryArg.getD []
  (suggestFetch query remote).map suggestionToOut

/-- A sample restaurant record (after the repository's own test data). -/
def r1 : Restaurant :=
  ⟨str "テスト寿司", some (9/2 : ℚ), some 123, str "銀座",
    [str "寿司", str "和食"], str "https://tabelog.com/a/1/",
    some (str "5000-5999"), some (str "10000-14999")⟩

/-- A second sample restaurant record. -/
def r2 : Restaurant :=
  ⟨str "テストラーメン", some (19/5 : ℚ), some 456, str "新宿",
    [str "ラーメン"], str "https://tabelog.com/a/2/",
    some (str "1000-1999"), none⟩

/-- Claim C5 (evaluation at the failing inputs): `_search_restaurants`
performs no bounds check on `limit` — with `limit=0` it silently returns
an empty record list and with `limit=100` it silently uses the
out-of-range bound, truncating to whatever is available; neither call is
rejected.  The repository's own tool schema declares `minimum: 1,
maximum: 60` and its tests demand a `limit must be between 1 and 60`
rejection, which this handler does not implement. -/
theorem claim_C5 :
    (searchRestaurants { limit := some 0 } [r1, r2]).2 = [] ∧
      (searchRestaurants { limit := some 100 } [r1, r2]).2
        = [toOut r1, toOut r2] :=
  ⟨rfl, rfl⟩

/-- Claim C6 (evaluation at the failing input): an unrecognized sort
token is not rejected — `_search_restaurants` silently maps it to the
default `SortType.RANKING` and produces a normal result, although the
repository's own tests demand an `Invalid sort type` rejection. -/
theorem claim_C6 :
    (searchRestaurants { sort := some (str "invalid-sort-type") }
        [r1]).1.sort_type = SortType.RANKING ∧
      (searchRestaurants { sort := some (str "invalid-sort-type") }
        [r1]).2 = [toOut r1] :=
  ⟨rfl, rfl⟩

/-- Claim C7 (evaluation at the failing input): a non-empty cuisine with
no genre-code mapping is not rejected — `_search_restaurants` silently
sets `genre_code = None` (exactly the nationwide degradation the claim
says must not happen for cuisine) and produces a normal result, although
the repository's own tests demand an `Unknown cuisine type` rejection. -/
theorem claim_C7 :
    (searchRestaurants { cuisine := some (str "存在しない料理") }
        [r1]).1.genre_code = none ∧
      (searchRestaurants { cuisine := some (str "存在しない料理") }
        [r1]).2 = [toOut r1] :=
  ⟨rfl, rfl⟩

/-- Claim C8 (evaluation at the failing inputs): an empty-after-trim (or
missing) suggestion query is not rejected by either suggestion handler —
each returns the empty suggestion list as a normal result, although the
repository's own tests demand a `query parameter cannot be empty`
rejection. -/
theorem claim_C8 :
    ∀ remote,
      getAreaSuggestions (some []) remote = [] ∧
      getAreaSuggestions (some (str "   ")) remote = [] ∧
      getAreaSuggestions none remote = [] ∧
      getKeywordSuggestions (some []) remote = [] ∧
      getKeywordSuggestions (some (str "   ")) remote = [] ∧
      getKeywordSuggestions none remote = [] :=
  fun _ => ⟨rfl, rfl, rfl, rfl, rfl, rfl⟩

/-- Claim C9: truncation is take-first-N — for every response list and
every in-bounds limit `N`, the handler returns exactly
`min (length, N)` records, namely the first `N` response records in
their original order, each converted to its output dict. -/
theorem claim_C9 :
    ∀ (args : SearchArgs) (fetched : List Restaurant) (N : Int),
      args.limit = some N → 1 ≤ N → N ≤ 60 →
      (searchRestaurants args fetched).2 = (fetched.take N.toNat).map toOut ∧
      ((searchRestaurants args fetched).2).length
        = min fetched.length N.toNat := by
  intro args fetched N hlim h1 h60
  have h0 : (0 : Int) ≤ N := by omega
  have hslice : pySliceTo (args.limit.getD 20) fetched = fetched.take N.toNat := by
    rw [hlim]
    show pySliceTo N fetched = _
    unfold pySliceTo
    rw [if_pos h0]
  constructor
  · show (pySliceTo (args.limit.getD 20) fetched).map toOut = _
    rw [hslice]
  · show ((pySliceTo (args.limit.getD 20) fetched).map toOut).length = _
    rw [hslice, List.length_map, List.length_take, Nat.min_comm]

theorem claim_C9_witness :
    (searchRestaurants { limit := some 1 } [r1, r2]).2
        = (([r1, r2] : List Restaurant).take (Int.toNat 1)).map toOut ∧
      ((searchRestaurants { limit := some 1 } [r1, r2]).2).length
        = min ([r1, r2] : List Restaurant).length (Int.toNat 1) :=
  claim_C9 { limit := some 1 } [r1, r2] 1 rfl (by decide) (by decide)

lemma toLower_toLower (c : Char) : c.toLower.toLower = c.toLower := by
  unfold Char.toLower
  by_cases h : c.toNat ≥ 65 ∧ c.toNat ≤ 90
  · rw [if_pos h]
    obtain ⟨h1, h2⟩ := h
    generalize hn : c.toNat = n at h1 h2 ⊢
    interval_cases n <;> decide
  · rw [if_neg h, if_neg h]

lemma pyLower_idem (s : List Char) : pyLower (pyLower s) = pyLower s := by
  unfold pyLower
  rw [List.map_map]
  exact List.map_congr_left fun a _ => toLower_toLower a

/-- Claim C10: sort-token resolution is case-insensitive and total — the
handler computes the same `SortType` for `s` as for its lowercasing, and
every token outside the recognized set maps to the default
`SortType.RANKING`; being a total function, the resolution step never
fails. -/
theorem claim_C10 :
    ∀ s : List Char,
      resolveSortType s = resolveSortType (pyLower s) ∧
      (pyLower s ∉ RECOGNIZED_SORTS → resolveSortType s = SortType.RANKING) := by
  intro s
  constructor
  · unfold resolveSortType
    rw [pyLower_idem]
  · intro hnot
    simp only [RECOGNIZED_SORTS, List.mem_cons, List.not_mem_nil, or_false,
      not_or] at hnot
    obtain ⟨h1, h2, h3, h4⟩ := hnot
    unfold resolveSortType sortMapGet
    rw [if_neg h1, if_neg h2, if_neg h3, if_neg h4]

theorem claim_C10_witness :
    resolveSortType (str "FOO") = resolveSortType (pyLower (str "FOO")) ∧
      resolveSortType (str "FOO") = SortType.RANKING :=
  ⟨(claim_C10 (str "FOO")).1, (claim_C10 (str "FOO")).2 (by decide)⟩

end Gurume
